import Mathlib

/-!
Verification of the TwinMind offline NLP core (sentiment dictionary, action-item
pattern registry, topic extractor, orchestrator) against its natural-language
specification.  The TypeScript sources are embedded shallowly: JS numbers are
modelled as exact rationals (`ℚ`), JS `Map`s as association lists with the same
insertion-order semantics, and JS `Array.prototype.sort` (a stable sort under a
consistent comparator) as insertion sort over the comparator's relation.
Regular-expression matching itself is opaque to every claim checked here, so the
detector is parametrised by the matcher; theorems quantify over it.
-/

set_option maxHeartbeats 1000000
set_option maxRecDepth 10000

namespace TwinMind

/-! ### Shared helpers -/

/-- JS `Number(x.toFixed(3))` on an exact rational: round to 3 decimal places.
ES `toFixed` picks the larger candidate on ties, i.e. rounds half toward `+∞`,
which is exactly Mathlib's `round` (`⌊x + 1/2⌋`). -/
def toFixed3 (q : ℚ) : ℚ := (round (q * 1000) : ℤ) / 1000

/-- First-occurrence deduplication: the iteration order of a JS `Set` built by
insertion, as in `Array.from(new Set(xs))`. -/
def dedupAux (seen : List String) : List String → List String
  | [] => []
  | x :: xs => if seen.contains x then dedupAux seen xs else x :: dedupAux (x :: seen) xs

def dedupKeepFirst (l : List String) : List String := dedupAux [] l

/-- JS regex `\s` / `String.prototype.trim` whitespace (ASCII fragment; the
dictionaries and claims are ASCII-only). -/
def isWsChar (c : Char) : Bool := c = ' ' || c = '\t' || c = '\n' || c = '\r'

/-- JS regex `\w`, that is `[A-Za-z0-9_]`. -/
def isWordChar (c : Char) : Bool := c.isAlphanum || c = '_'

/-- JS `String.prototype.trim` on a character list. -/
def trimWs (l : List Char) : List Char :=
  ((l.dropWhile isWsChar).reverse.dropWhile isWsChar).reverse

def collapseWsAux : Bool → List Char → List Char
  | _, [] => []
  | inRun, c :: cs =>
    if isWsChar c then
      if inRun then collapseWsAux true cs else ' ' :: collapseWsAux true cs
    else c :: collapseWsAux false cs

/-- JS `.replace(/\s+/g, ' ')`: each whitespace run becomes a single blank. -/
def collapseWs (l : List Char) : List Char := collapseWsAux false l

/-- All positions of `l` (including one past the end) at which `pat` starts. -/
def matchPositions (l pat : List Char) : List Nat :=
  (List.range (l.length + 1)).filter (fun k => pat.isPrefixOf (l.drop k))

/-- JS `String.prototype.includes`: does `pat` occur inside `s`? -/
def strIncludes (s pat : String) : Bool := !(matchPositions s.data pat.data).isEmpty

/-! ### SentimentDictionary (src/src/nlp/OfflineNLP.ts, dictionary section)

The four vocabularies and the tier lists are transcribed verbatim from
`initializeDictionaries`; JS `Set` membership coincides with list membership. -/

def positiveWordsList : List String :=
  ["happy", "joy", "excited", "amazing", "awesome", "fantastic", "wonderful",
   "great", "excellent", "perfect", "brilliant", "outstanding", "superb",
   "delighted", "thrilled", "elated", "cheerful", "optimistic", "confident",
   "proud", "satisfied", "grateful", "blessed", "lucky", "fortunate",
   "success", "achieve", "accomplished", "complete", "finished", "done",
   "won", "victory", "triumph", "breakthrough", "progress", "improvement",
   "advance", "growth", "development", "innovation", "creative", "productive",
   "love", "friend", "family", "support", "help", "team", "together",
   "connected", "close", "bond", "trust", "respect", "appreciation",
   "kindness", "generous", "caring", "compassionate", "understanding",
   "opportunity", "promotion", "raise", "bonus", "recognition", "praise",
   "compliment", "recommendation", "approval", "acceptance", "hired",
   "qualified", "skilled", "expert", "professional", "capable",
   "healthy", "energetic", "strong", "fit", "well", "better", "recovered",
   "refreshed", "relaxed", "calm", "peaceful", "centered", "balanced",
   "good", "nice", "fine", "okay", "alright", "pleasant", "smooth",
   "easy", "simple", "clear", "bright", "beautiful", "lovely", "pretty",
   "cool", "interesting", "fun", "enjoyable", "entertaining", "engaging"]

def negativeWordsList : List String :=
  ["sad", "angry", "frustrated", "annoyed", "upset", "disappointed",
   "depressed", "anxious", "worried", "stressed", "overwhelmed", "exhausted",
   "tired", "bored", "lonely", "isolated", "rejected", "hurt", "pain",
   "suffering", "miserable", "terrible", "awful", "horrible", "disgusting",
   "problem", "issue", "trouble", "difficulty", "struggle", "challenge",
   "obstacle", "barrier", "setback", "failure", "mistake", "error",
   "wrong", "bad", "worse", "worst", "failed", "broken", "damaged",
   "fired", "laid off", "rejected", "denied", "refused", "criticized",
   "complained", "blamed", "accused", "punished", "penalized", "demoted",
   "overworked", "underpaid", "unfair", "biased", "discrimination",
   "sick", "ill", "disease", "injury", "hurt", "ache", "sore", "weak",
   "fatigue", "nausea", "fever", "infection", "allergic", "chronic",
   "argument", "fight", "conflict", "disagreement", "breakup", "divorce",
   "betrayed", "cheated", "lied", "deceived", "abandoned", "ignored",
   "excluded", "bullied", "harassed", "abused", "threatened",
   "hate", "dislike", "avoid", "prevent", "stop", "quit", "give up",
   "impossible", "hopeless", "useless", "worthless", "meaningless",
   "waste", "loss", "lose", "lost", "missing", "gone", "empty", "nothing"]

def intensifiersList : List String :=
  ["very", "extremely", "incredibly", "amazingly", "absolutely", "completely",
   "totally", "entirely", "perfectly", "fully", "really", "truly",
   "genuinely", "seriously", "definitely", "certainly", "surely",
   "quite", "rather", "pretty", "fairly", "somewhat", "kind of",
   "super", "mega", "ultra", "highly", "deeply", "strongly",
   "tremendously", "enormously", "immensely", "exceptionally"]

def negatorsList : List String :=
  ["not", "no", "never", "nothing", "nobody", "none", "neither",
   "without", "lack", "lacking", "missing", "absent", "void",
   "don\x27t", "won\x27t", "can\x27t", "shouldn\x27t", "wouldn\x27t", "couldn\x27t",
   "isn\x27t", "aren\x27t", "wasn\x27t", "weren\x27t", "hasn\x27t", "haven\x27t",
   "hadn\x27t", "doesn\x27t", "didn\x27t", "barely", "hardly", "scarcely",
   "refuse", "deny", "reject", "avoid", "prevent", "stop"]

inductive Label
  | positive
  | negative
  | neutral
deriving DecidableEq

inductive WordClass
  | intens
  | negat
  | pos
  | neg
  | plain
deriving DecidableEq

/-- Branch order of `SentimentDictionary.analyze`'s loop body: the intensifier
check runs first, then the negator check (each with `continue`), then the
positive / negative vocabulary checks. -/
def classify (w : String) : WordClass :=
  if intensifiersList.contains w then .intens
  else if negatorsList.contains w then .negat
  else if positiveWordsList.contains w then .pos
  else if negativeWordsList.contains w then .neg
  else .plain

def strongPositives : List String :=
  ["amazing", "awesome", "fantastic", "excellent", "perfect", "brilliant"]

def moderatePositives : List String := ["great", "good", "nice", "happy", "wonderful"]

def strongNegatives : List String := ["terrible", "awful", "horrible", "hate", "disgusting"]

def moderateNegatives : List String := ["bad", "sad", "angry", "problem", "wrong"]

/-- The `positiveScores` tier map built in `initializeDictionaries`. -/
def positiveScore (w : String) : ℚ :=
  if strongPositives.contains w then 8/10
  else if moderatePositives.contains w then 6/10
  else 4/10

/-- The `negativeScores` tier map built in `initializeDictionaries`. -/
def negativeScore (w : String) : ℚ :=
  if strongNegatives.contains w then -(8/10)
  else if moderateNegatives.contains w then -(6/10)
  else -(4/10)

/-- `wordScore` before context adjustment; `0` exactly when the loop body skips
scoring (intensifier / negator `continue`, or a word outside both vocabularies). -/
def rawScore (w : String) : ℚ :=
  match classify w with
  | .pos => positiveScore w
  | .neg => negativeScore w
  | _ => 0

def tokAt (lw : List String) (i : Nat) : String := lw.getD i ""

/-- `prevWord`: `i > 0 ? lowerWords[i-1] : ''`. -/
def prevTok (lw : List String) (i : Nat) : String := if i = 0 then "" else lw.getD (i - 1) ""

/-- `nextWord`: `i < n-1 ? lowerWords[i+1] : ''`. -/
def nextTok (lw : List String) (i : Nat) : String := lw.getD (i + 1) ""

/-- The negation scan `for (j = max(0, i-2); j < i; j++)`: is some negator among
the up-to-2 tokens immediately before position `i`? -/
def isNegatedAt (lw : List String) (i : Nat) : Bool :=
  ((lw.take i).drop (i - 2)).any (fun t => negatorsList.contains t)

/-- `intensityMultiplier`: 1.3 for a preceding intensifier, and the max of the
current multiplier and 1.2 for a following one. -/
def intensityMultiplier (p n : String) : ℚ :=
  let m : ℚ := if intensifiersList.contains p then 13/10 else 1
  if intensifiersList.contains n then max m (12/10) else m

/-- Contribution of position `i` to the accumulator `totalScore`: the base score,
sign-flipped and damped by 0.8 under negation, then scaled by the intensity
multiplier; `0` for positions the loop does not score. -/
def scoreAt (lw : List String) (i : Nat) : ℚ :=
  let s := rawScore (tokAt lw i)
  if s = 0 then 0
  else (if isNegatedAt lw i then -s * (8/10) else s) * intensityMultiplier (prevTok lw i) (nextTok lw i)

/-- Does position `i` increment the `sentimentWords` counter? -/
def countedAt (lw : List String) (i : Nat) : Bool := rawScore (tokAt lw i) != 0

structure SentimentBreakdown where
  positiveWords : List String
  negativeWords : List String
  intensifiers : List String
  negators : List String
deriving DecidableEq

structure SentimentAnalysis where
  score : ℚ
  confidence : ℚ
  label : Label
  breakdown : SentimentBreakdown
deriving DecidableEq

def lowerOf (words : List String) : List String := words.map String.toLower

/-- The breakdown lists, in token order, as pushed by the loop. -/
def breakdownOf (lw : List String) : SentimentBreakdown :=
  ⟨lw.filter (fun w => decide (classify w = WordClass.pos)),
   lw.filter (fun w => decide (classify w = WordClass.neg)),
   lw.filter (fun w => decide (classify w = WordClass.intens)),
   lw.filter (fun w => decide (classify w = WordClass.negat))⟩

def totalScoreOf (lw : List String) : ℚ := ((List.range lw.length).map (scoreAt lw)).sum

def sentimentWordCount (lw : List String) : Nat :=
  ((List.range lw.length).filter (countedAt lw)).length

def averageScoreOf (lw : List String) : ℚ :=
  if 0 < sentimentWordCount lw then totalScoreOf lw / (sentimentWordCount lw : ℚ) else 0

/-- `normalizedScore`: the average clamped to `[-1, 1]`, before display rounding. -/
def normalizedScoreOf (lw : List String) : ℚ := max (-1) (min 1 (averageScoreOf lw))

def confidenceRawOf (lw : List String) : ℚ :=
  let wordDensity : ℚ := (sentimentWordCount lw : ℚ) / ((max 1 lw.length : Nat) : ℚ)
  let consistencyFactor : ℚ :=
    if 0 < sentimentWordCount lw then |totalScoreOf lw| / (sentimentWordCount lw : ℚ) else 0
  min (19/20) (wordDensity * 2 + consistencyFactor * (1/2))

/-- The label thresholds applied to `normalizedScore`. -/
def labelOf (q : ℚ) : Label :=
  if 1/10 < q then .positive else if q < -(1/10) then .negative else .neutral

/-- `SentimentDictionary.analyze`.  The source method's `text` argument is unused
there and omitted here.  The single scoring loop is expressed as a per-index
contribution (`scoreAt`) summed over token positions; addition of exact rationals
is associative and commutative, so this equals the loop's accumulator. -/
def analyze (words : List String) : SentimentAnalysis :=
  let lw := lowerOf words
  ⟨toFixed3 (normalizedScoreOf lw), toFixed3 (confidenceRawOf lw),
   labelOf (normalizedScoreOf lw), breakdownOf lw⟩

/-! ### ActionPatterns (src/src/nlp/patterns/ActionPatterns.ts)

Regular-expression evaluation itself plays no role in the claims checked here,
so the matcher is a parameter `find : String → String → List String` returning
the raw global-match list of the named pattern on a text; the theorems below
hold for every matcher.  Names and priorities are transcribed from
`initializePatterns` in insertion order. -/

inductive Priority
  | high
  | medium
  | low
deriving DecidableEq

/-- `high = 3, medium = 2, low = 1` as in `prioritizeItems`. -/
def priorityScore : Priority → Nat
  | .high => 3
  | .medium => 2
  | .low => 1

def patternsList : List (String × Priority) :=
  [("urgent_tasks", .high), ("deadline_tasks", .high), ("need_to_actions", .high),
   ("todo_items", .medium), ("planning_actions", .medium), ("meeting_actions", .medium),
   ("communication_actions", .medium), ("research_actions", .medium),
   ("consideration_actions", .low), ("want_actions", .low), ("someday_actions", .low),
   ("action_verbs", .medium), ("question_actions", .low), ("time_actions", .medium),
   ("work_actions", .medium), ("personal_actions", .medium)]

def pronounsList : List String := ["i", "we", "you", "they", "he", "she", "it"]

/-- JS `.replace(/^(i|we|you|they|he|she|it)\s+/, '')`: ordered alternation with
backtracking removes the first listed pronoun that is a head of the string and is
followed by whitespace, together with the whole whitespace run after it. -/
def stripLeadingPronoun (l : List Char) : List Char :=
  match pronounsList.find? (fun p =>
      p.data.isPrefixOf l &&
        (match l.drop p.length with
         | c :: _ => isWsChar c
         | [] => false)) with
  | some p => (l.drop p.length).dropWhile isWsChar
  | none => l

/-- `ActionPatterns.cleanMatch`: trim, strip a leading and a trailing non-word
run, collapse whitespace, lowercase, strip one leading pronoun, trim again. -/
def cleanMatch (m : String) : String :=
  let l := trimWs m.data
  let l := l.dropWhile (fun c => !isWordChar c)
  let l := (l.reverse.dropWhile (fun c => !isWordChar c)).reverse
  let l := collapseWs l
  let l := l.map Char.toLower
  let l := stripLeadingPronoun l
  ⟨trimWs l⟩

/-- The length window of `detect`: `match.length > 10 && match.length < 200`. -/
def lenOK (m : String) : Bool := decide (10 < m.length) && decide (m.length < 200)

structure PatternResult where
  pattern : String
  matchList : List String
  priority : Priority
deriving DecidableEq

/-- Per-pattern cleaning: the source filters the mapped array by the length
window together with `arr.indexOf(match) === index`; keeping first occurrences
and then filtering by length retains exactly the same positions in the same
order. -/
def cleanedMatchesOf (ms : List String) : List String :=
  (dedupKeepFirst (ms.map cleanMatch)).filter lenOK

def processPattern (find : String → String → List String) (text : String)
    (p : String × Priority) : Option PatternResult :=
  let ms := find p.1 text
  if ms.isEmpty then none
  else
    let cleaned := cleanedMatchesOf ms
    if cleaned.isEmpty then none
    else some ⟨p.1, cleaned, p.2⟩

def patternResultsOf (find : String → String → List String) (text : String) :
    List PatternResult :=
  patternsList.filterMap (processPattern find text)

/-- `allMatches`: the surviving cleaned matches pushed pattern by pattern. -/
def allMatchesOf (find : String → String → List String) (text : String) : List String :=
  (patternResultsOf find text).flatMap (fun pr => pr.matchList)

/-- `Array.from(new Set(allMatches))`. -/
def uniqueItemsOf (find : String → String → List String) (text : String) : List String :=
  dedupKeepFirst (allMatchesOf find text)

/-- One write `priorityScores.set(k, Math.max(current, v))` with
`current = get(k) || 0`.  The map is observed only through `get(k) || 0`
(`prioritizeItems` never iterates it), so it is embedded as the lookup function
itself. -/
def setMax (f : String → Nat) (k : String) (v : Nat) : String → Nat :=
  fun q => if q = k then max (f q) v else f q

/-- The `priorityScores` map built by `prioritizeItems`, as its lookup
`get(k) || 0`: the empty map, written `Math.max` pattern by pattern and match by
match. -/
def buildPriorityMap (prs : List PatternResult) : String → Nat :=
  prs.foldl (fun f pr =>
    pr.matchList.foldl (fun g mt => setMax g mt (priorityScore pr.priority)) f)
    (fun _ => 0)

def scoreOfItem (prs : List PatternResult) (m : String) : Nat :=
  buildPriorityMap prs m

/-- The comparator of `prioritizeItems` as a relation: `a` may precede `b` when
its priority score is larger, or the scores tie and `a` is at least as long. -/
def itemRel (prs : List PatternResult) (a b : String) : Prop :=
  scoreOfItem prs b < scoreOfItem prs a ∨
    (scoreOfItem prs a = scoreOfItem prs b ∧ b.length ≤ a.length)

instance (prs : List PatternResult) : DecidableRel (itemRel prs) := fun _ _ => by
  unfold itemRel; infer_instance

instance (prs : List PatternResult) : IsTotal String (itemRel prs) where
  total a b := by
    unfold itemRel
    rcases Nat.lt_trichotomy (scoreOfItem prs a) (scoreOfItem prs b) with h | h | h
    · exact Or.inr (Or.inl h)
    · rcases Nat.le_total a.length b.length with hl | hl
      · exact Or.inr (Or.inr ⟨h.symm, hl⟩)
      · exact Or.inl (Or.inr ⟨h, hl⟩)
    · exact Or.inl (Or.inl h)

instance (prs : List PatternResult) : IsTrans String (itemRel prs) where
  trans a b c hab hbc := by
    unfold itemRel at *
    rcases hab with hab | ⟨hab, hab'⟩ <;> rcases hbc with hbc | ⟨hbc, hbc'⟩
    · exact Or.inl (hbc.trans hab)
    · exact Or.inl (hbc ▸ hab)
    · exact Or.inl (by rw [hab]; exact hbc)
    · exact Or.inr ⟨hab.trans hbc, hbc'.trans hab'⟩

structure ActionItemsResult where
  items : List String
  patterns : List PatternResult
  totalCount : Nat
deriving DecidableEq

/-- `ActionPatterns.detect`.  JS `Array.prototype.sort` is stable and the
comparator above is consistent, so the sorted output equals the insertion sort
of `itemRel` (any two stable sorts agree).  The `sentences` argument is received
and ignored exactly as in the source. -/
def detect (find : String → String → List String) (text : String)
    (sentences : List String) : ActionItemsResult :=
  ⟨List.insertionSort (itemRel (patternResultsOf find text)) (uniqueItemsOf find text),
   patternResultsOf find text,
   (uniqueItemsOf find text).length⟩

/-! ### TopicExtractor (src/src/nlp/extractors/TopicExtractor.ts)

Stop words, the eight topic categories and the domain keyword scores are
transcribed verbatim, in insertion order. -/

def stopWordsList : List String :=
  ["a", "an", "the", "this", "that", "these", "those", "my", "your", "his", "her",
   "its", "our", "their",
   "i", "me", "you", "he", "him", "she", "her", "it", "we", "us", "they", "them",
   "myself", "yourself",
   "in", "on", "at", "by", "for", "with", "about", "against", "between", "into",
   "through", "during", "before", "after", "above", "below", "up", "down", "out",
   "off", "over", "under", "again", "further",
   "and", "or", "but", "if", "then", "because", "as", "until", "while", "of", "to",
   "from", "since",
   "is", "am", "are", "was", "were", "be", "been", "being", "have", "has", "had",
   "having", "do", "does", "did", "doing", "will", "would", "could", "should",
   "may", "might", "must", "can", "shall",
   "very", "really", "quite", "rather", "just", "only", "also", "too", "so", "now",
   "then", "here", "there", "when", "where", "why", "how", "all", "any", "both",
   "each", "few", "more", "most", "other", "some", "such", "no", "nor", "not",
   "only", "own", "same", "than", "too", "well",
   "today", "tomorrow", "yesterday", "always", "never", "sometimes", "often",
   "usually", "maybe", "perhaps", "probably", "definitely", "certainly", "surely"]

def workWords : List String :=
  ["work", "job", "career", "office", "meeting", "project", "task", "deadline",
   "team", "manager", "boss", "colleague", "client", "customer", "presentation",
   "report", "proposal", "budget", "strategy", "planning", "development",
   "business", "company", "organization", "department", "position", "role",
   "responsibility", "skill", "experience", "training", "conference", "interview",
   "promotion", "raise", "bonus", "performance", "review", "feedback", "goal",
   "objective", "target", "achievement", "success", "failure", "challenge",
   "opportunity", "email", "phone", "call", "communication", "collaboration",
   "teamwork", "leadership", "management", "administration", "coordination",
   "supervision", "delegation", "execution"]

def healthWords : List String :=
  ["health", "wellness", "fitness", "exercise", "workout", "gym", "running",
   "walking", "sport", "yoga", "meditation", "diet", "nutrition", "food",
   "eating", "meal", "cooking", "recipe", "doctor", "medical", "appointment",
   "checkup", "treatment", "medicine", "medication", "hospital", "clinic",
   "therapy", "counseling", "mental", "emotional", "stress", "anxiety",
   "depression", "mood", "feeling", "energy", "sleep", "rest", "relaxation",
   "recovery", "injury", "pain", "ache", "sick", "illness", "disease",
   "condition", "symptom", "weight", "muscle", "strength", "cardio",
   "flexibility", "balance", "coordination", "breathing", "heart", "blood",
   "pressure", "cholesterol", "diabetes", "allergy"]

def relationshipsWords : List String :=
  ["family", "friend", "relationship", "partner", "spouse", "marriage", "dating",
   "love", "romance", "friendship", "social", "party", "gathering", "event",
   "celebration", "communication", "conversation", "discussion", "argument",
   "conflict", "agreement", "support", "help", "advice", "guidance",
   "understanding", "empathy", "compassion", "trust", "respect", "loyalty",
   "commitment", "bond", "connection", "intimacy", "parent", "child", "son",
   "daughter", "mother", "father", "brother", "sister", "grandparent", "uncle",
   "aunt", "cousin", "neighbor", "community", "group", "club", "organization",
   "network", "contact", "acquaintance", "colleague"]

def personalDevelopmentWords : List String :=
  ["learning", "education", "study", "course", "class", "training", "skill",
   "knowledge", "growth", "development", "improvement", "progress",
   "achievement", "goal", "objective", "plan", "strategy", "vision", "dream",
   "aspiration", "ambition", "motivation", "inspiration", "creativity",
   "innovation", "thinking", "reflection", "contemplation", "mindfulness",
   "awareness", "consciousness", "spirituality", "philosophy", "wisdom", "book",
   "reading", "writing", "journal", "diary", "note", "idea", "thought",
   "concept", "theory", "practice", "habit", "routine", "discipline",
   "consistency", "challenge", "opportunity", "experience", "adventure",
   "exploration", "discovery"]

def financeWords : List String :=
  ["money", "finance", "financial", "budget", "expense", "cost", "price",
   "payment", "salary", "income", "earning", "profit", "loss", "saving",
   "spending", "investment", "stock", "bond", "portfolio", "retirement",
   "pension", "insurance", "tax", "debt", "loan", "mortgage", "credit",
   "banking", "account", "transaction", "purchase", "buy", "sell", "trade",
   "market", "economy", "inflation", "recession", "growth", "wealth", "rich",
   "poor", "expensive", "cheap", "affordable", "valuable", "worth"]

def technologyWords : List String :=
  ["technology", "computer", "laptop", "desktop", "phone", "mobile",
   "smartphone", "tablet", "software", "application", "app", "program",
   "system", "platform", "website", "internet", "online", "digital",
   "electronic", "device", "gadget", "tool", "equipment", "hardware", "network",
   "connection", "wireless", "bluetooth", "wifi", "data", "information",
   "database", "server", "cloud", "storage", "backup", "security", "privacy",
   "encryption", "coding", "programming", "development", "design", "interface",
   "user", "experience", "artificial", "intelligence", "machine", "learning",
   "automation", "robot", "smart"]

def homeWords : List String :=
  ["home", "house", "apartment", "room", "bedroom", "kitchen", "bathroom",
   "living", "dining", "office", "garage", "garden", "yard", "furniture",
   "decoration", "design", "renovation", "repair", "maintenance", "cleaning",
   "organization", "storage", "appliance", "electric", "plumbing", "heating",
   "cooling", "lighting", "security", "neighborhood", "location", "address",
   "rent", "mortgage", "property", "real estate", "moving", "packing",
   "unpacking", "settling", "comfort", "cozy", "spacious", "modern"]

def travelWords : List String :=
  ["travel", "trip", "vacation", "holiday", "journey", "adventure",
   "exploration", "tour", "destination", "location", "place", "city", "country",
   "continent", "culture", "local", "flight", "plane", "airport", "hotel",
   "accommodation", "booking", "reservation", "restaurant", "food", "cuisine",
   "sightseeing", "attraction", "museum", "park", "beach", "mountain", "nature",
   "landscape", "scenery", "photo", "memory", "experience", "recreation",
   "entertainment", "fun", "hobby", "interest", "passion", "activity", "sport",
   "game", "music", "movie", "book", "art", "creativity", "relaxation"]

def topicCategoriesList : List (String × List String) :=
  [("work", workWords), ("health", healthWords), ("relationships", relationshipsWords),
   ("personal_development", personalDevelopmentWords), ("finance", financeWords),
   ("technology", technologyWords), ("home", homeWords), ("travel", travelWords)]

/-- The `domainKeywords` writes of `initializeDomainKeywords`, flattened in
`forEach` order. -/
def domainKeywordPairs : List (String × ℚ) :=
  [("feel", 8/10), ("feeling", 8/10), ("emotion", 8/10), ("mood", 8/10),
   ("think", 8/10), ("thought", 8/10), ("mind", 8/10), ("mental", 8/10),
   ("plan", 7/10), ("goal", 7/10), ("objective", 7/10), ("task", 7/10),
   ("project", 7/10), ("work", 7/10), ("complete", 7/10), ("finish", 7/10),
   ("time", 6/10), ("schedule", 6/10), ("calendar", 6/10), ("deadline", 6/10),
   ("urgent", 6/10), ("priority", 6/10), ("important", 6/10),
   ("learn", 7/10), ("study", 7/10), ("practice", 7/10), ("skill", 7/10),
   ("knowledge", 7/10), ("improve", 7/10), ("develop", 7/10), ("grow", 7/10),
   ("problem", 8/10), ("issue", 8/10), ("challenge", 8/10), ("solution", 8/10),
   ("fix", 8/10), ("solve", 8/10), ("resolve", 8/10), ("handle", 8/10),
   ("family", 6/10), ("friend", 6/10), ("colleague", 6/10), ("team", 6/10),
   ("partner", 6/10), ("relationship", 6/10), ("communication", 6/10)]

/-- `domainKeywords.get(word) || 0.3`.  `Map.set` lets the last write win, so the
lookup walks the reversed pair list. -/
def domainScoreOf (w : String) : ℚ :=
  (List.lookup w domainKeywordPairs.reverse).getD (3/10)

/-- `word.toLowerCase().replace(/[^\w]/g, '')`. -/
def cleanTopicWord (w : String) : String := ⟨(w.data.map Char.toLower).filter isWordChar⟩

/-- JS `/^\d+$/.test(word)`: nonempty and all digits. -/
def isAllDigits (w : String) : Bool := !w.data.isEmpty && w.data.all Char.isDigit

/-- The keep-predicate of `calculateWordFrequencies`: length in `(2, 20)`, not a
stop word, not purely numeric. -/
def keepTopicWord (w : String) : Bool :=
  decide (2 < w.length) && decide (w.length < 20) &&
    !stopWordsList.contains w && !isAllDigits w

/-- One `freq.set(word, (freq.get(word) || 0) + 1)` step on an insertion-ordered
association list, as a JS `Map` behaves. -/
def bumpFreq (m : List (String × Nat)) (w : String) : List (String × Nat) :=
  if m.any (fun p => p.1 == w) then
    m.map (fun p => if p.1 == w then (p.1, p.2 + 1) else p)
  else m ++ [(w, 1)]

/-- `TopicExtractor.calculateWordFrequencies`. -/
def calculateWordFrequencies (words : List String) : List (String × Nat) :=
  ((words.map cleanTopicWord).filter keepTopicWord).foldl bumpFreq []

structure Keyword where
  word : String
  frequency : Nat
  relevance : ℚ
deriving DecidableEq

/-- JS `String.prototype.indexOf` (first occurrence, or −1). -/
def jsIndexOf (s pat : String) : Int :=
  match matchPositions s.data pat.data with
  | [] => -1
  | k :: _ => (k : Int)

/-- JS `String.prototype.lastIndexOf`. -/
def jsLastIndexOf (s pat : String) : Int :=
  match (matchPositions s.data pat.data).getLast? with
  | none => -1
  | some k => (k : Int)

/-- The relevance blend of `calculateRelevanceScores` for one frequency entry:
`0.4·normalizedFreq + 0.4·domainScore + lengthBonus + positionBonus`, rounded to
3 decimals. -/
def relevanceOf (text : String) (maxFreq : Nat) (w : String) (freq : Nat) : ℚ :=
  let normalizedFreq : ℚ := (freq : ℚ) / (maxFreq : ℚ)
  let domainScore := domainScoreOf w
  let lengthBonus : ℚ := min (3/10) (((w.length : ℚ) - 3) * (1/20))
  let lowerText := text.toLower
  let firstIndex := jsIndexOf lowerText w
  let lastIndex := jsLastIndexOf lowerText w
  let textLength : ℚ := (text.length : ℚ)
  let positionBonus : ℚ :=
    if (firstIndex : ℚ) < textLength * (2/10) ∨ (lastIndex : ℚ) > textLength * (8/10)
    then 1/10 else 0
  toFixed3 (normalizedFreq * (4/10) + domainScore * (4/10) + lengthBonus + positionBonus)

/-- Descending relevance, the comparator `(a, b) => b.relevance - a.relevance`. -/
def kwRel (a b : Keyword) : Prop := b.relevance ≤ a.relevance

instance : DecidableRel kwRel := fun _ _ => by unfold kwRel; infer_instance

instance : IsTotal Keyword kwRel := ⟨fun a b => le_total b.relevance a.relevance⟩

instance : IsTrans Keyword kwRel := ⟨fun _ _ _ h1 h2 => le_trans h2 h1⟩

/-- `calculateRelevanceScores`: score each entry, sort by descending relevance
(stable), drop entries at or below 0.2.  JS `Math.max(...)` over an empty spread
is `-Infinity`, a value the source never consumes since the map over an empty
entry list is `[]`; the fold below starts at 0 and every frequency of a nonempty
entry list is ≥ 1, so the two agree wherever the maximum is used. -/
def calculateRelevanceScores (wordFreq : List (String × Nat)) (text : String) :
    List Keyword :=
  let maxFreq := (wordFreq.map (fun p => p.2)).foldl max 0
  let scored := wordFreq.map (fun p => Keyword.mk p.1 p.2 (relevanceOf text maxFreq p.1 p.2))
  (List.insertionSort kwRel scored).filter (fun k => decide ((2/10 : ℚ) < k.relevance))

/-- The per-category accumulation of `categorizeTopics`: full relevance for an
exact hit, then half relevance once per substring-overlapping category word. -/
def categoryScoreCode (cws : List String) (kws : List Keyword) : ℚ :=
  kws.foldl (fun score k =>
    let score := if cws.contains k.word.toLower then score + k.relevance else score
    cws.foldl (fun sc cw =>
      if strIncludes k.word cw || strIncludes cw k.word then sc + k.relevance * (1/2)
      else sc) score) 0

/-- Descending category score, the comparator `([,a],[,b]) => b - a`. -/
def catRel (a b : String × ℚ) : Prop := b.2 ≤ a.2

instance : DecidableRel catRel := fun _ _ => by unfold catRel; infer_instance

instance : IsTotal (String × ℚ) catRel := ⟨fun a b => le_total b.2 a.2⟩

instance : IsTrans (String × ℚ) catRel := ⟨fun _ _ _ h1 h2 => le_trans h2 h1⟩

/-- `categorizeTopics`: the categories with positive score, sorted descending
(stable sort of a consistent comparator = insertion sort). -/
def categorizeTopics (kws : List Keyword) : List (String × ℚ) :=
  List.insertionSort catRel
    ((topicCategoriesList.map (fun c => (c.1, categoryScoreCode c.2 kws))).filter
      (fun p => decide ((0 : ℚ) < p.2)))

structure TopicsResult where
  primary : List String
  secondary : List String
  keywords : List Keyword
  categories : List String
deriving DecidableEq

/-- `extractTopicHierarchy`. -/
def extractTopicHierarchy (keywords : List Keyword) (categories : List (String × ℚ)) :
    List String × List String :=
  let primaryKeywords :=
    ((keywords.take 5).filter (fun k => decide ((5/10 : ℚ) < k.relevance))).map
      (fun k => k.word)
  let primaryCategories := (categories.map (fun c => c.1)).take 2
  let primary := dedupKeepFirst (primaryKeywords ++ primaryCategories)
  let secondaryKeywords :=
    (((keywords.drop 5).take 5).filter (fun k => decide ((3/10 : ℚ) < k.relevance))).map
      (fun k => k.word)
  let secondaryCategories := ((categories.map (fun c => c.1)).drop 2).take 2
  let secondary :=
    (dedupKeepFirst (secondaryKeywords ++ secondaryCategories)).filter
      (fun t => !primary.contains t)
  (primary, secondary)

/-- `TopicExtractor.extract`: keywords are the top 15 scored entries, categories
the top 5 names. -/
def extract (text : String) (words : List String) : TopicsResult :=
  let wordFreq := calculateWordFrequencies words
  let keywordScores := calculateRelevanceScores wordFreq text
  let categories := categorizeTopics keywordScores
  let hier := extractTopicHierarchy keywordScores categories
  ⟨hier.1, hier.2, keywordScores.take 15, (categories.map (fun c => c.1)).take 5⟩

/-! ### TextPreprocessor and InsightGenerator (spec-modelled)

The classes `TextPreprocessor` and `InsightGenerator` are imported by the
orchestrator (`src/src/nlp/OfflineNLP.ts`) but their source files are not among
the repository files inspected; they are modelled from spec §4.1 and §4.5. -/

/-- Modelled from the spec: `TextPreprocessor.clean` (§4.1) — "normalizes
whitespace and strips/normalizes punctuation … without altering word content";
"empty input yields empty sequences".  Modelled as whitespace normalisation:
collapse runs and trim. -/
def clean (text : String) : String := ⟨trimWs (collapseWs text.data)⟩

def isSentenceEnder (c : Char) : Bool := c = '.' || c = '!' || c = '?'

def splitEndersAux (acc : List Char) : List Char → List (List Char)
  | [] => [acc.reverse]
  | c :: cs =>
    if isSentenceEnder c then acc.reverse :: splitEndersAux [] cs
    else splitEndersAux (c :: acc) cs

/-- Modelled from the spec: `TextPreprocessor.splitSentences` (§4.1) — "segments
on sentence-ending punctuation; must tolerate missing terminal punctuation";
empty input yields the empty sequence. -/
def splitSentences (text : String) : List String :=
  ((splitEndersAux [] text.data).map (fun l => (⟨trimWs l⟩ : String))).filter
    (fun s => s ≠ "")

def splitWsAux (acc : List Char) : List Char → List (List Char)
  | [] => [acc.reverse]
  | c :: cs =>
    if isWsChar c then acc.reverse :: splitWsAux [] cs
    else splitWsAux (c :: acc) cs

/-- Modelled from the spec: `TextPreprocessor.tokenize` (§4.1) — "splits on
whitespace"; empty input yields the empty sequence. -/
def tokenize (text : String) : List String :=
  ((splitWsAux [] text.data).map (fun l => (⟨l⟩ : String))).filter (fun s => s ≠ "")

inductive Mood
  | positive
  | negative
  | neutral
  | excited
  | concerned
  | thoughtful
deriving DecidableEq

inductive Energy
  | high
  | medium
  | low
deriving DecidableEq

inductive Focus
  | clear
  | scattered
  | mixed
deriving DecidableEq

structure Insights where
  mood : Mood
  energy : Energy
  focus : Focus
  recommendations : List String
  patterns : List String
deriving DecidableEq

/-! ### OfflineNLP orchestrator (src/src/nlp/OfflineNLP.ts, `processText`)

`processingTime`, `timestamp` and the constant `privacy` block are ambient
metadata (wall clock) and are not part of the embedded result. -/

structure NLPResult where
  originalText : String
  processedText : String
  wordCount : Nat
  sentenceCount : Nat
  sentiment : SentimentAnalysis
  actionItems : ActionItemsResult
  topics : TopicsResult
  insights : Insights
deriving DecidableEq

/-- Modelled from the spec: `InsightGenerator.generate` (§4.5) — the class is
not among the inspected sources.  The spec fixes only the contract: rule-based,
deterministic in its inputs, valid enum values, and a never-empty
recommendation list; the exact thresholds are an implementation choice. -/
def generateInsights (r : NLPResult) : Insights :=
  { mood := match r.sentiment.label with
      | .positive => .positive
      | .negative => .negative
      | .neutral => .neutral
    energy := .medium
    focus := if r.topics.primary.length ≤ 2 then .clear else .mixed
    recommendations := ["Keep capturing your thoughts to build better insights"]
    patterns := [] }

structure Options where
  skipSentiment : Bool
  skipActionItems : Bool
  skipTopics : Bool
  skipInsights : Bool
  storeResults : Bool
deriving DecidableEq

/-- No options supplied: every flag absent / false. -/
def opts0 : Options := ⟨false, false, false, false, false⟩

/-- The result skeleton built before the `try` block: every analysis section at
its safe zero-valued default. -/
def initialResult (text : String) : NLPResult :=
  let processed := clean text
  { originalText := text
    processedText := processed
    wordCount := (tokenize processed).length
    sentenceCount := (splitSentences processed).length
    sentiment := ⟨0, 0, .neutral, ⟨[], [], [], []⟩⟩
    actionItems := ⟨[], [], 0⟩
    topics := ⟨[], [], [], []⟩
    insights := ⟨.neutral, .medium, .mixed, [], []⟩ }

/-- The three generic recommendations installed by the `catch` branch. -/
def fallbackRecommendations : List String :=
  ["Text processed locally with basic analysis",
   "All processing completed on your device",
   "Your privacy is fully protected"]

/-- The `catch` branch: return the partially built result with the generic
recommendation text installed. -/
def applyFallback (r : NLPResult) : NLPResult :=
  { r with insights := { r.insights with recommendations := fallbackRecommendations } }

/-- The body of `processText`'s single `try`/`catch`: stages run sequentially
inside one `try`; a stage that throws jumps to `catch`, which returns the result
as built so far (sections of the failing and of every later stage still hold
their defaults).  A skip flag leaves the section at its default without running
the stage.  Stage outcomes are `Except`-valued to express "this stage threw". -/
def runStages (r0 : NLPResult) (opts : Options)
    (sent : Except Unit SentimentAnalysis)
    (act : Except Unit ActionItemsResult)
    (top : Except Unit TopicsResult)
    (ins : NLPResult → Except Unit Insights) : NLPResult :=
  match (if opts.skipSentiment then Except.ok r0.sentiment else sent) with
  | .error _ => applyFallback r0
  | .ok s =>
    let r1 := { r0 with sentiment := s }
    match (if opts.skipActionItems then Except.ok r1.actionItems else act) with
    | .error _ => applyFallback r1
    | .ok a =>
      let r2 := { r1 with actionItems := a }
      match (if opts.skipTopics then Except.ok r2.topics else top) with
      | .error _ => applyFallback r2
      | .ok t =>
        let r3 := { r2 with topics := t }
        match (if opts.skipInsights then Except.ok r3.insights else ins r3) with
        | .error _ => applyFallback r3
        | .ok iv => { r3 with insights := iv }

/-- `OfflineNLP.processText` with the embedded (total, hence non-throwing)
stages, parametrised by the regex matcher. -/
def processText (find : String → String → List String) (text : String)
    (opts : Options) : NLPResult :=
  let processed := clean text
  let sentences := splitSentences processed
  let words := tokenize processed
  runStages (initialResult text) opts
    (Except.ok (analyze words))
    (Except.ok (detect find processed sentences))
    (Except.ok (extract processed words))
    (fun r => Except.ok (generateInsights r))

/-! ### Supporting lemmas -/

theorem dedupAux_spec (l : List String) : ∀ seen : List String,
    (dedupAux seen l).Nodup ∧ ∀ x ∈ dedupAux seen l, x ∈ l ∧ x ∉ seen := by
  induction l with
  | nil => intro seen; simp [dedupAux]
  | cons x xs ih =>
    intro seen
    unfold dedupAux
    by_cases hx : x ∈ seen
    · rw [if_pos (by simpa using hx)]
      obtain ⟨h1, h2⟩ := ih seen
      exact ⟨h1, fun y hy => ⟨List.mem_cons_of_mem _ (h2 y hy).1, (h2 y hy).2⟩⟩
    · rw [if_neg (by simpa using hx)]
      obtain ⟨h1, h2⟩ := ih (x :: seen)
      constructor
      · exact List.nodup_cons.mpr ⟨fun hmem => (h2 x hmem).2 (List.mem_cons_self _ _), h1⟩
      · intro y hy
        rcases List.mem_cons.mp hy with rfl | hy'
        · exact ⟨List.mem_cons_self _ _, hx⟩
        · obtain ⟨hyx, hys⟩ := h2 y hy'
          exact ⟨List.mem_cons_of_mem _ hyx, fun hc => hys (List.mem_cons_of_mem _ hc)⟩

theorem dedupKeepFirst_nodup (l : List String) : (dedupKeepFirst l).Nodup :=
  (dedupAux_spec l []).1

theorem mem_of_mem_dedupKeepFirst {x : String} {l : List String}
    (h : x ∈ dedupKeepFirst l) : x ∈ l :=
  ((dedupAux_spec l []).2 x h).1

theorem mem_cleanedMatchesOf {x : String} {ms : List String}
    (h : x ∈ cleanedMatchesOf ms) : x ∈ ms.map cleanMatch ∧ lenOK x = true := by
  unfold cleanedMatchesOf at h
  obtain ⟨h1, h2⟩ := List.mem_filter.mp h
  exact ⟨mem_of_mem_dedupKeepFirst h1, h2⟩

theorem matchList_of_mem_patternResults {find : String → String → List String}
    {text : String} {pr : PatternResult} (h : pr ∈ patternResultsOf find text) :
    ∃ ms, pr.matchList = cleanedMatchesOf ms := by
  obtain ⟨p, _, hp⟩ := List.mem_filterMap.mp h
  unfold processPattern at hp
  by_cases h1 : (find p.1 text).isEmpty
  · rw [if_pos h1] at hp; exact absurd hp (by simp)
  · rw [if_neg h1] at hp
    by_cases h2 : (cleanedMatchesOf (find p.1 text)).isEmpty
    · rw [if_pos h2] at hp; exact absurd hp (by simp)
    · rw [if_neg h2] at hp
      exact ⟨find p.1 text, by cases hp.symm; rfl⟩

theorem lenOK_of_mem_items {find : String → String → List String} {text : String}
    {sentences : List String} {m : String}
    (h : m ∈ (detect find text sentences).items) : lenOK m = true := by
  have h1 : m ∈ uniqueItemsOf find text :=
    ((List.perm_insertionSort _ _).mem_iff).mp h
  have h2 : m ∈ allMatchesOf find text := mem_of_mem_dedupKeepFirst h1
  obtain ⟨pr, hpr, hm⟩ := List.mem_flatMap.mp h2
  obtain ⟨ms, hms⟩ := matchList_of_mem_patternResults hpr
  exact (mem_cleanedMatchesOf (hms ▸ hm)).2

/-- The spec's description of the priority score: the maximum of the scores of
the patterns whose (cleaned, surviving) match set produced the fragment. -/
def maxPrioritySpec (prs : List PatternResult) (m : String) : Nat :=
  ((prs.filter (fun pr => pr.matchList.contains m)).map
    (fun pr => priorityScore pr.priority)).foldr max 0

theorem foldl_setMax_apply (v : Nat) : ∀ (ms : List String) (f : String → Nat) (k : String),
    (ms.foldl (fun g mt => setMax g mt v) f) k
      = if ms.contains k then max (f k) v else f k := by
  intro ms
  induction ms with
  | nil => intro f k; simp
  | cons mt rest ih =>
    intro f k
    simp only [List.foldl_cons]
    rw [ih]
    by_cases hk : k = mt
    · subst hk
      by_cases hr : rest.contains k <;>
        simp [setMax, hr, List.contains_cons, max_assoc]
    · by_cases hr : rest.contains k <;>
        simp [setMax, hk, hr, List.contains_cons, Ne.symm hk]

theorem buildPriorityMap_foldl : ∀ (prs : List PatternResult) (f : String → Nat) (k : String),
    (prs.foldl (fun g pr =>
        pr.matchList.foldl (fun h mt => setMax h mt (priorityScore pr.priority)) g) f) k
      = max (f k) (maxPrioritySpec prs k) := by
  intro prs
  induction prs with
  | nil => intro f k; simp [maxPrioritySpec]
  | cons pr rest ih =>
    intro f k
    simp only [List.foldl_cons]
    rw [ih, foldl_setMax_apply]
    by_cases hc : k ∈ pr.matchList
    · simp [maxPrioritySpec, hc, List.filter_cons, max_assoc]
    · simp [maxPrioritySpec, hc, List.filter_cons]

theorem scoreOfItem_eq_spec (prs : List PatternResult) (m : String) :
    scoreOfItem prs m = maxPrioritySpec prs m := by
  unfold scoreOfItem buildPriorityMap
  rw [buildPriorityMap_foldl]
  simp

theorem sorted_indexOf_lt {prs : List PatternResult} {l : List String}
    (hs : l.Pairwise (itemRel prs)) (a b : String) (ha : a ∈ l) (hb : b ∈ l)
    (h : scoreOfItem prs b < scoreOfItem prs a) :
    l.indexOf a < l.indexOf b := by
  have hne : a ≠ b := fun e => absurd h (by rw [e]; exact lt_irrefl _)
  have hia := List.indexOf_lt_length.mpr ha
  have hib := List.indexOf_lt_length.mpr hb
  rcases Nat.lt_trichotomy (l.indexOf a) (l.indexOf b) with hlt | heq | hgt
  · exact hlt
  · exact absurd ((List.indexOf_inj ha hb).mp heq) hne
  · exfalso
    have hrel := List.pairwise_iff_getElem.mp hs _ _ hib hia hgt
    rw [List.getElem_indexOf hib, List.getElem_indexOf hia] at hrel
    rcases hrel with hlt' | ⟨heq', _⟩
    · exact absurd h (Nat.lt_asymm hlt')
    · exact (Nat.ne_of_lt h) heq'

/-! ### Claim theorems -/

/-- C3: for every input text and sentence list (and any regex matcher), the
`items` array returned by action-item detection contains no duplicate strings,
and every item's character length lies in the interval `[10, 200)`. -/
theorem C3_actionitems_nodup_and_bounds (find : String → String → List String)
    (text : String) (sentences : List String) :
    (detect find text sentences).items.Nodup ∧
      ∀ m ∈ (detect find text sentences).items, 10 ≤ m.length ∧ m.length < 200 := by
  constructor
  · exact ((List.perm_insertionSort _ _).nodup_iff).mpr (dedupKeepFirst_nodup _)
  · intro m hm
    have h := lenOK_of_mem_items hm
    simp only [lenOK, Bool.and_eq_true, decide_eq_true_eq] at h
    exact ⟨Nat.le_of_lt h.1, h.2⟩

def findW1 : String → String → List String := fun p _ =>
  if p = "urgent_tasks" then ["Urgent call John about the deadline!"] else []

theorem C3_witness :
    "urgent call john about the deadline" ∈ (detect findW1 "t" []).items ∧
      10 ≤ ("urgent call john about the deadline" : String).length ∧
      ("urgent call john about the deadline" : String).length < 200 :=
  ⟨by decide, (C3_actionitems_nodup_and_bounds findW1 "t" []).2 _ (by decide)⟩

/-- C4: in the sorted items list, each unique fragment receives the maximum
priority score (high=3, medium=2, low=1) among the patterns that produced it;
the items are ordered by descending priority score with descending character
length as the tie-break (`itemRel`); and an item with strictly larger score — in
particular one matched only by a high-priority pattern against one matched only
by a low-priority pattern — sorts strictly earlier. -/
theorem C4_priority_ordering (find : String → String → List String) (text : String)
    (sentences : List String) :
    (∀ m, scoreOfItem (patternResultsOf find text) m
        = maxPrioritySpec (patternResultsOf find text) m) ∧
    (detect find text sentences).items.Pairwise (itemRel (patternResultsOf find text)) ∧
    ∀ a b, a ∈ (detect find text sentences).items →
      b ∈ (detect find text sentences).items →
      scoreOfItem (patternResultsOf find text) b
        < scoreOfItem (patternResultsOf find text) a →
      (detect find text sentences).items.indexOf a
        < (detect find text sentences).items.indexOf b := by
  refine ⟨fun m => scoreOfItem_eq_spec _ _, ?_, ?_⟩
  · exact List.sorted_insertionSort _ _
  · intro a b ha hb h
    exact sorted_indexOf_lt (List.sorted_insertionSort _ _) a b ha hb h

def findW2 : String → String → List String := fun p _ =>
  if p = "urgent_tasks" then ["urgent finish the quarterly report now!"]
  else if p = "someday_actions" then ["someday learn to paint watercolors."] else []

theorem C4_witness :
    (detect findW2 "t" []).items.indexOf "urgent finish the quarterly report now"
      < (detect findW2 "t" []).items.indexOf "someday learn to paint watercolors" :=
  (C4_priority_ordering findW2 "t" []).2.2 _ _ (by decide) (by decide) (by decide)

theorem round_mono_q {x y : ℚ} (h : x ≤ y) : round x ≤ round y := by
  rw [round_eq, round_eq]
  exact Int.floor_mono (by linarith)

theorem toFixed3_le_int {q : ℚ} {n : ℤ} (h : q ≤ (n : ℚ)) : toFixed3 q ≤ (n : ℚ) := by
  unfold toFixed3
  have h1 : round (q * 1000) ≤ n * 1000 := by
    have h2 : q * 1000 ≤ ((n * 1000 : ℤ) : ℚ) := by push_cast; nlinarith
    calc round (q * 1000) ≤ round (((n * 1000 : ℤ) : ℚ)) := round_mono_q h2
      _ = n * 1000 := round_intCast _
  rw [div_le_iff (by norm_num : (0 : ℚ) < 1000)]
  calc ((round (q * 1000) : ℤ) : ℚ) ≤ ((n * 1000 : ℤ) : ℚ) := by exact_mod_cast h1
    _ = (n : ℚ) * 1000 := by push_cast; ring

theorem int_le_toFixed3 {q : ℚ} {n : ℤ} (h : (n : ℚ) ≤ q) : (n : ℚ) ≤ toFixed3 q := by
  unfold toFixed3
  have h1 : n * 1000 ≤ round (q * 1000) := by
    have h2 : ((n * 1000 : ℤ) : ℚ) ≤ q * 1000 := by push_cast; nlinarith
    calc (n * 1000 : ℤ) = round (((n * 1000 : ℤ) : ℚ)) := (round_intCast _).symm
      _ ≤ round (q * 1000) := round_mono_q h2
  rw [le_div_iff (by norm_num : (0 : ℚ) < 1000)]
  calc (n : ℚ) * 1000 = ((n * 1000 : ℤ) : ℚ) := by push_cast; ring
    _ ≤ ((round (q * 1000) : ℤ) : ℚ) := by exact_mod_cast h1

theorem normalizedScore_bounds (lw : List String) :
    -1 ≤ normalizedScoreOf lw ∧ normalizedScoreOf lw ≤ 1 := by
  unfold normalizedScoreOf
  exact ⟨le_max_left _ _, max_le (by norm_num) (min_le_left _ _)⟩

theorem confidenceRaw_bounds (lw : List String) :
    0 ≤ confidenceRawOf lw ∧ confidenceRawOf lw ≤ 19/20 := by
  unfold confidenceRawOf
  refine ⟨le_min (by norm_num) ?_, min_le_left _ _⟩
  have h1 : (0 : ℚ) ≤ (sentimentWordCount lw : ℚ) / ((max 1 lw.length : Nat) : ℚ) :=
    div_nonneg (by positivity) (by positivity)
  have h2 : (0 : ℚ) ≤
      (if 0 < sentimentWordCount lw then |totalScoreOf lw| / (sentimentWordCount lw : ℚ)
       else 0) := by
    split
    · exact div_nonneg (abs_nonneg _) (by positivity)
    · exact le_refl 0
  nlinarith

/-- C5 (amended): sentiment analysis always returns `score ∈ [-1, 1]` and
`confidence ∈ [0, 1]`, and the label is derived deterministically by the fixed
thresholds from the clamped average score BEFORE it is rounded to 3 decimals for
the returned `score` field: `normalizedScore > 0.1` yields positive and
`normalizedScore < -0.1` yields negative, otherwise neutral. -/
theorem C5_sentiment_bounds_and_label (words : List String) :
    -1 ≤ (analyze words).score ∧ (analyze words).score ≤ 1 ∧
    0 ≤ (analyze words).confidence ∧ (analyze words).confidence ≤ 1 ∧
    ((analyze words).label = Label.positive ↔ 1/10 < normalizedScoreOf (lowerOf words)) ∧
    ((analyze words).label = Label.negative ↔
      normalizedScoreOf (lowerOf words) < -(1/10)) := by
  obtain ⟨hs1, hs2⟩ := normalizedScore_bounds (lowerOf words)
  obtain ⟨hc1, hc2⟩ := confidenceRaw_bounds (lowerOf words)
  have e1 : (analyze words).score = toFixed3 (normalizedScoreOf (lowerOf words)) := rfl
  have e2 : (analyze words).confidence = toFixed3 (confidenceRawOf (lowerOf words)) := rfl
  have e3 : (analyze words).label = labelOf (normalizedScoreOf (lowerOf words)) := rfl
  refine ⟨?_, ?_, ?_, ?_, ?_, ?_⟩
  · rw [e1]
    have := int_le_toFixed3 (n := -1) (q := normalizedScoreOf (lowerOf words))
      (by exact_mod_cast hs1)
    exact_mod_cast this
  · rw [e1]
    have := toFixed3_le_int (n := 1) (q := normalizedScoreOf (lowerOf words))
      (by exact_mod_cast hs2)
    exact_mod_cast this
  · rw [e2]
    have := int_le_toFixed3 (n := 0) (q := confidenceRawOf (lowerOf words))
      (by exact_mod_cast hc1)
    exact_mod_cast this
  · rw [e2]
    have := toFixed3_le_int (n := 1) (q := confidenceRawOf (lowerOf words))
      (by exact_mod_cast (hc2.trans (by norm_num)))
    exact_mod_cast this
  · rw [e3]; unfold labelOf
    split_ifs with h1 h2
    · exact iff_of_true rfl h1
    · exact iff_of_false (by decide) h1
    · exact iff_of_false (by decide) h1
  · rw [e3]; unfold labelOf
    split_ifs with h1 h2
    · exact iff_of_false (by decide) (by linarith)
    · exact iff_of_true rfl h2
    · exact iff_of_false (by decide) h2

/-- The token sequence exhibiting the label / rounded-score mismatch: nine
sentiment words contributing 0.52 + 0.384 + 0.8 − 0.4 − 0.4 + 0.4 − 0.4 + 0.4 −
0.4 = 0.904, average 0.904/9 ≈ 0.10044 > 0.1 (label positive), rounded to
exactly 0.100 for the returned score. -/
def cexWords : List String :=
  ["very", "joy", "not", "tired", "really", "the", "amazing", "tired", "tired", "joy",
   "tired", "joy", "tired"]

/-- C5 counterexample: the claim as stated derives the label from the returned
`score` field, but for `cexWords` the label is `positive` while the returned
score is exactly 0.1, which the stated thresholds map to `neutral`. -/
theorem C5_counterexample :
    (analyze cexWords).label = Label.positive ∧ (analyze cexWords).score = 1/10 ∧
      ¬(1/10 < (analyze cexWords).score) := by
  refine ⟨by with_unfolding_all decide, by with_unfolding_all decide, ?_⟩
  intro h
  have : (analyze cexWords).score = 1/10 := by with_unfolding_all decide
  rw [this] at h
  exact lt_irrefl _ h

/-- C6: a token of the positive or negative vocabulary with a negator among the
up-to-2 tokens immediately preceding it contributes its base score with flipped
sign damped by 0.8 — `-score * 0.8`, before any intensifier multiplier — and in
particular the token sequence of "I am not happy" yields a sentiment score
≤ 0. -/
theorem C6_negation (lw : List String) (i : Nat)
    (hneg : isNegatedAt lw i = true) (hs : rawScore (tokAt lw i) ≠ 0) :
    scoreAt lw i
      = (-(rawScore (tokAt lw i)) * (8/10))
          * intensityMultiplier (prevTok lw i) (nextTok lw i) ∧
    (analyze ["i", "am", "not", "happy"]).score ≤ 0 := by
  constructor
  · unfold scoreAt
    rw [if_neg hs, if_pos hneg]
  · have : (analyze ["i", "am", "not", "happy"]).score = -(12/25) := by
      with_unfolding_all decide
    rw [this]; norm_num

theorem C6_witness :
    scoreAt ["not", "happy"] 1
      = (-(rawScore (tokAt ["not", "happy"] 1)) * (8/10))
          * intensityMultiplier (prevTok ["not", "happy"] 1) (nextTok ["not", "happy"] 1) ∧
    (analyze ["i", "am", "not", "happy"]).score ≤ 0 :=
  C6_negation ["not", "happy"] 1 (by decide) (by with_unfolding_all decide)

/-- C7: an immediately preceding intensifier multiplies the word score by 1.3
(also when a following intensifier is present, 1.3 being the larger of the two
multipliers), a following-only intensifier multiplies by 1.2, and concretely the
token sequence of "very happy" yields a score of strictly greater absolute
value than "happy" alone. -/
theorem C7_intensifier (p n : String) (hp : intensifiersList.contains p = true) :
    intensityMultiplier p n = 13/10 ∧
    (∀ q m, intensifiersList.contains q = false → intensifiersList.contains m = true →
      intensityMultiplier q m = 12/10) ∧
    |(analyze ["very", "happy"]).score| > |(analyze ["happy"]).score| := by
  refine ⟨?_, ?_, ?_⟩
  · unfold intensityMultiplier
    have hp' : p ∈ intensifiersList := by simpa using hp
    by_cases hn : n ∈ intensifiersList
    · have hle : (12/10 : ℚ) ≤ 13/10 := by norm_num
      simp [hp', hn, max_eq_left hle]
    · simp [hp', hn]
  · intro q m hq hm
    have hq' : q ∉ intensifiersList := by simpa using hq
    have hm' : m ∈ intensifiersList := by simpa using hm
    have hle : (1 : ℚ) ≤ 12/10 := by norm_num
    simp [intensityMultiplier, hq', hm', max_eq_right hle]
  · have e1 : (analyze ["very", "happy"]).score = 39/50 := by with_unfolding_all decide
    have e2 : (analyze ["happy"]).score = 3/5 := by with_unfolding_all decide
    rw [e1, e2]
    rw [abs_of_pos (by norm_num), abs_of_pos (by norm_num)]
    norm_num

theorem C7_witness :
    intensityMultiplier "very" "" = 13/10 ∧
    (∀ q m, intensifiersList.contains q = false → intensifiersList.contains m = true →
      intensityMultiplier q m = 12/10) ∧
    |(analyze ["very", "happy"]).score| > |(analyze ["happy"]).score| :=
  C7_intensifier "very" "" (by decide)

/-- C10: a token of the intensifier or negator set is always classified as
intensifier/negator and never scored as a sentiment word, even when it also
belongs to the positive or negative vocabulary (as "pretty", "stop", "avoid",
"prevent" and "missing" do): every occurrence contributes 0 to the accumulated
score, does not increment the sentiment-word counter, lands in the
intensifiers/negators breakdown, and never appears in the positive/negative
breakdown. -/
theorem C10_intensifier_negator_precedence (lw : List String) (w : String)
    (hw : intensifiersList.contains w = true ∨ negatorsList.contains w = true) :
    (∀ i, tokAt lw i = w → scoreAt lw i = 0 ∧ countedAt lw i = false) ∧
    w ∉ (breakdownOf lw).positiveWords ∧ w ∉ (breakdownOf lw).negativeWords ∧
    (w ∈ lw → w ∈ (breakdownOf lw).intensifiers ∨ w ∈ (breakdownOf lw).negators) ∧
    ("pretty" ∈ positiveWordsList ∧ "pretty" ∈ intensifiersList ∧
     "stop" ∈ negativeWordsList ∧ "stop" ∈ negatorsList ∧
     "avoid" ∈ negativeWordsList ∧ "avoid" ∈ negatorsList ∧
     "prevent" ∈ negativeWordsList ∧ "prevent" ∈ negatorsList ∧
     "missing" ∈ negativeWordsList ∧ "missing" ∈ negatorsList) := by
  have hcl : classify w = WordClass.intens ∨ classify w = WordClass.negat := by
    unfold classify
    by_cases h2 : intensifiersList.contains w
    · rw [if_pos h2]; exact Or.inl rfl
    · rcases hw with h | h
      · exact absurd h h2
      · rw [if_neg h2, if_pos h]; exact Or.inr rfl
  have hraw : rawScore w = 0 := by
    unfold rawScore
    rcases hcl with h | h <;> rw [h]
  refine ⟨?_, ?_, ?_, ?_, by decide⟩
  · intro i hi
    constructor
    · unfold scoreAt
      rw [hi, hraw, if_pos rfl]
    · unfold countedAt
      rw [hi, hraw]
      simp
  · intro hmem
    have := (List.mem_filter.mp hmem).2
    rcases hcl with h | h <;> simp [h] at this
  · intro hmem
    have := (List.mem_filter.mp hmem).2
    rcases hcl with h | h <;> simp [h] at this
  · intro hmem
    rcases hcl with h | h
    · exact Or.inl (List.mem_filter.mpr ⟨hmem, by simp [h]⟩)
    · exact Or.inr (List.mem_filter.mpr ⟨hmem, by simp [h]⟩)

theorem C10_witness :
    scoreAt (lowerOf ["pretty", "good"]) 0 = 0 ∧
      countedAt (lowerOf ["pretty", "good"]) 0 = false :=
  (C10_intensifier_negator_precedence (lowerOf ["pretty", "good"]) "pretty"
    (Or.inl (by decide))).1 0 (by with_unfolding_all decide)

def cexActionItems : ActionItemsResult :=
  ⟨["call john tomorrow morning"],
   [⟨"communication_actions", ["call john tomorrow morning"], Priority.medium⟩], 1⟩

def cexTopics : TopicsResult := ⟨["work"], [], [], ["work"]⟩

def cexInsights : Insights := ⟨.neutral, .medium, .mixed, [], []⟩

/-- C1 counterexample: the orchestrator wraps all stages in one try/catch, so
with the sentiment stage throwing, the action-item and topic stages do not
contribute to the result on that call: their nonzero stage values are absent
and those sections remain at the zero defaults. -/
theorem C1_counterexample :
    (runStages (initialResult "x") opts0 (Except.error ()) (Except.ok cexActionItems)
        (Except.ok cexTopics) (fun _ => Except.ok cexInsights)).actionItems.totalCount = 0 ∧
    (runStages (initialResult "x") opts0 (Except.error ()) (Except.ok cexActionItems)
        (Except.ok cexTopics) (fun _ => Except.ok cexInsights)).topics.primary = [] ∧
    cexActionItems.totalCount = 1 ∧ cexTopics.primary = ["work"] :=
  ⟨rfl, rfl, rfl, rfl⟩

/-- C1 (amended): when one stage throws, the orchestrator catches the exception
at its single try/catch and returns the result as built so far: the failing
stage's section and every later stage's section still hold their safe
zero-valued defaults, stages before the failing one keep their computed
sections, and the generic fallback recommendations are installed; the remaining
stages do not run on that call. -/
theorem C1_stage_exception (r0 : NLPResult) (s : SentimentAnalysis)
    (a : Except Unit ActionItemsResult) (t : Except Unit TopicsResult)
    (av : ActionItemsResult) (tv : TopicsResult)
    (ins : NLPResult → Except Unit Insights) :
    runStages r0 opts0 (Except.error ()) a t ins = applyFallback r0 ∧
    runStages r0 opts0 (Except.ok s) (Except.error ()) t ins
      = applyFallback { r0 with sentiment := s } ∧
    runStages r0 opts0 (Except.ok s) (Except.ok av) (Except.error ()) ins
      = applyFallback { r0 with sentiment := s, actionItems := av } ∧
    runStages r0 opts0 (Except.ok s) (Except.ok av) (Except.ok tv)
        (fun _ => Except.error ())
      = applyFallback { r0 with sentiment := s, actionItems := av, topics := tv } ∧
    (applyFallback r0).sentiment = r0.sentiment ∧
    (applyFallback r0).actionItems = r0.actionItems ∧
    (applyFallback r0).topics = r0.topics ∧
    (applyFallback r0).insights.recommendations = fallbackRecommendations :=
  ⟨rfl, rfl, rfl, rfl, rfl, rfl, rfl, rfl⟩

/-- The claim's formula for a category score: summed over the keywords, the full
relevance for an exact category-word hit plus half the relevance once for every
category word overlapping as a substring in either direction. -/
def categoryScoreSpec (cws : List String) (kws : List Keyword) : ℚ :=
  (kws.map (fun k =>
    (if cws.contains k.word.toLower then k.relevance else 0)
      + ((cws.filter
            (fun cw => strIncludes k.word cw || strIncludes cw k.word)).length : ℚ)
          * (k.relevance * (1/2)))).sum

theorem foldl_addIf (x : ℚ) (P : String → Bool) : ∀ (cws : List String) (s : ℚ),
    cws.foldl (fun sc cw => if P cw then sc + x else sc) s
      = s + ((cws.filter P).length : ℚ) * x := by
  intro cws
  induction cws with
  | nil => intro s; simp
  | cons cw rest ih =>
    intro s
    simp only [List.foldl_cons]
    rw [ih]
    by_cases h : P cw
    · simp only [h, if_true, List.filter_cons_of_pos h, List.length_cons]
      push_cast
      ring
    · simp only [h, Bool.false_eq_true, if_false, List.filter_cons_of_neg h]

theorem categoryScoreCode_eq_spec (cws : List String) (kws : List Keyword) :
    categoryScoreCode cws kws = categoryScoreSpec cws kws := by
  unfold categoryScoreCode categoryScoreSpec
  suffices h : ∀ (ks : List Keyword) (a : ℚ),
      ks.foldl (fun score k =>
        cws.foldl (fun sc cw =>
          if strIncludes k.word cw || strIncludes cw k.word then sc + k.relevance * (1/2)
          else sc)
          (if cws.contains k.word.toLower then score + k.relevance else score)) a
      = a + (ks.map (fun k =>
          (if cws.contains k.word.toLower then k.relevance else 0)
            + ((cws.filter
                  (fun cw => strIncludes k.word cw || strIncludes cw k.word)).length : ℚ)
                * (k.relevance * (1/2)))).sum by
    simpa using h kws 0
  intro ks
  induction ks with
  | nil => intro a; simp
  | cons k rest ih =>
    intro a
    simp only [List.foldl_cons, List.map_cons, List.sum_cons]
    rw [ih, foldl_addIf]
    by_cases h : cws.contains k.word.toLower
    · simp only [h, if_true]
      ring
    · simp only [h, Bool.false_eq_true, if_false]
      ring

theorem keys_nodup_val_eq {β : Type} : ∀ {l : List (String × β)},
    (l.map Prod.fst).Nodup →
    ∀ {k : String} {v1 v2 : β}, (k, v1) ∈ l → (k, v2) ∈ l → v1 = v2 := by
  intro l
  induction l with
  | nil => intro _ k v1 v2 h1; cases h1
  | cons p rest ih =>
    intro hnd k v1 v2 h1 h2
    simp only [List.map_cons, List.nodup_cons] at hnd
    rcases List.mem_cons.mp h1 with e1 | h1'
    · rcases List.mem_cons.mp h2 with e2 | h2'
      · rw [← e1] at e2; exact (Prod.mk.injEq _ _ _ _).mp e2.symm |>.2
      · exfalso
        apply hnd.1
        rw [← e1]
        exact List.mem_map.mpr ⟨(k, v2), h2', rfl⟩
    · rcases List.mem_cons.mp h2 with e2 | h2'
      · exfalso
        apply hnd.1
        rw [← e2]
        exact List.mem_map.mpr ⟨(k, v1), h1', rfl⟩
      · exact ih hnd.2 h1' h2'

/-- C2: for every keyword list and each topic category, a score for that
category appears in the categorization output exactly when the claim's sum
formula is positive, the score present equals that formula, and the output is
sorted by descending score. -/
theorem C2_category_scoring (kws : List Keyword) (c : String) (cws : List String)
    (hc : (c, cws) ∈ topicCategoriesList) :
    (∀ s : ℚ, (c, s) ∈ categorizeTopics kws ↔
      (s = categoryScoreSpec cws kws ∧ 0 < s)) ∧
    (categorizeTopics kws).Pairwise (fun a b => b.2 ≤ a.2) := by
  have hnd : (topicCategoriesList.map Prod.fst).Nodup := by decide
  have hperm := List.perm_insertionSort catRel
    ((topicCategoriesList.map (fun c => (c.1, categoryScoreCode c.2 kws))).filter
      (fun p => decide ((0 : ℚ) < p.2)))
  constructor
  · intro s
    constructor
    · intro hmem
      have hmem' : (c, s) ∈
          (topicCategoriesList.map (fun c => (c.1, categoryScoreCode c.2 kws))).filter
            (fun p => decide ((0 : ℚ) < p.2)) := hperm.mem_iff.mp hmem
      obtain ⟨hmem2, hpos⟩ := List.mem_filter.mp hmem'
      obtain ⟨q, hq, heq⟩ := List.mem_map.mp hmem2
      have hc' : q.1 = c := congrArg Prod.fst heq
      have hs' : s = categoryScoreCode q.2 kws := (congrArg Prod.snd heq).symm
      have hqq : (c, q.2) ∈ topicCategoriesList := by
        rw [← hc']; exact hq
      have : q.2 = cws := keys_nodup_val_eq hnd hqq hc
      rw [this] at hs'
      rw [hs', categoryScoreCode_eq_spec]
      refine ⟨rfl, ?_⟩
      rw [← categoryScoreCode_eq_spec]
      simpa [hs'] using hpos
    · rintro ⟨hs, hpos⟩
      apply hperm.mem_iff.mpr
      apply List.mem_filter.mpr
      constructor
      · apply List.mem_map.mpr
        refine ⟨(c, cws), hc, ?_⟩
        rw [categoryScoreCode_eq_spec, ← hs]
      · simpa [categoryScoreCode_eq_spec, ← hs] using hpos
  · exact List.sorted_insertionSort catRel _

def kws1 : List Keyword := [⟨"work", 1, 1⟩]

theorem C2_witness :
    (∀ s : ℚ, ("work", s) ∈ categorizeTopics kws1 ↔
      (s = categoryScoreSpec workWords kws1 ∧ 0 < s)) ∧
    (categorizeTopics kws1).Pairwise (fun a b => b.2 ≤ a.2) :=
  C2_category_scoring kws1 "work" workWords (by decide)

theorem take_subset_take {α : Type} {l : List α} {m n : Nat} (h : m ≤ n) :
    l.take m ⊆ l.take n := by
  intro x hx
  have e : l.take m = (l.take n).take m := by
    rw [List.take_take, min_eq_left h]
  rw [e] at hx
  exact List.take_subset _ _ hx

theorem drop_take_subset {α : Type} (l : List α) (m k : Nat) :
    (l.drop m).take k ⊆ l.take (m + k) := by
  intro x hx
  rw [List.take_add]
  exact List.mem_append.mpr (Or.inr hx)

theorem hierarchy_subset (ks : List Keyword) (cats : List (String × ℚ)) :
    (∀ x ∈ (extractTopicHierarchy ks cats).1,
        x ∈ (ks.take 15).map (fun k => k.word) ∨ x ∈ (cats.map (fun c => c.1)).take 5) ∧
    (∀ x ∈ (extractTopicHierarchy ks cats).2,
        (x ∈ (ks.take 15).map (fun k => k.word) ∨ x ∈ (cats.map (fun c => c.1)).take 5)
          ∧ x ∉ (extractTopicHierarchy ks cats).1) := by
  unfold extractTopicHierarchy
  dsimp only
  constructor
  · intro x hx
    have hx' := mem_of_mem_dedupKeepFirst hx
    rcases List.mem_append.mp hx' with h | h
    · obtain ⟨k, hk, rfl⟩ := List.mem_map.mp h
      have hk' := List.mem_filter.mp hk
      exact Or.inl (List.mem_map.mpr ⟨k, take_subset_take (by norm_num) hk'.1, rfl⟩)
    · exact Or.inr (take_subset_take (by norm_num) h)
  · intro x hx
    obtain ⟨hx1, hx2⟩ := List.mem_filter.mp hx
    have hx' := mem_of_mem_dedupKeepFirst hx1
    refine ⟨?_, by simpa using hx2⟩
    rcases List.mem_append.mp hx' with h | h
    · obtain ⟨k, hk, rfl⟩ := List.mem_map.mp h
      have hk' := List.mem_filter.mp hk
      have h10 : k ∈ ks.take 10 := drop_take_subset ks 5 5 hk'.1
      exact Or.inl (List.mem_map.mpr ⟨k, take_subset_take (by norm_num) h10, rfl⟩)
    · have h4 : x ∈ (cats.map (fun c => c.1)).take 4 :=
        drop_take_subset (cats.map (fun c => c.1)) 2 2 h
      exact Or.inr (take_subset_take (by norm_num) h4)

/-- C8: every element of `topics.primary` and `topics.secondary` appears among
the words of the returned `topics.keywords` list (top 15) or in the returned
`topics.categories` list (top 5), and no element of `secondary` also appears in
`primary`. -/
theorem C8_topic_containment (text : String) (words : List String) (x : String) :
    ((x ∈ (extract text words).primary ∨ x ∈ (extract text words).secondary) →
      (x ∈ (extract text words).keywords.map (fun k => k.word) ∨
        x ∈ (extract text words).categories)) ∧
    (x ∈ (extract text words).secondary → x ∉ (extract text words).primary) := by
  have h := hierarchy_subset
    (calculateRelevanceScores (calculateWordFrequencies words) text)
    (categorizeTopics (calculateRelevanceScores (calculateWordFrequencies words) text))
  constructor
  · intro hx
    rcases hx with hx | hx
    · exact h.1 x hx
    · exact (h.2 x hx).1
  · intro hx
    exact (h.2 x hx).2

theorem C8_witness :
    "project" ∈ (extract "project project" ["project", "project"]).keywords.map
        (fun k => k.word) ∨
      "project" ∈ (extract "project project" ["project", "project"]).categories :=
  (C8_topic_containment "project project" ["project", "project"] "project").1
    (Or.inl (by with_unfolding_all decide))

theorem runStages_ok (r0 : NLPResult) (s : SentimentAnalysis) (a : ActionItemsResult)
    (t : TopicsResult) (ins : NLPResult → Except Unit Insights) (iv : Insights)
    (hins : ins { r0 with sentiment := s, actionItems := a, topics := t }
      = Except.ok iv) :
    runStages r0 opts0 (Except.ok s) (Except.ok a) (Except.ok t) ins
      = { r0 with sentiment := s, actionItems := a, topics := t, insights := iv } := by
  unfold runStages opts0
  simp only [if_neg (by exact Bool.false_ne_true)]
  rw [hins]

theorem detect_empty (find : String → String → List String)
    (hfind : ∀ p m, m ∈ find p "" → m = "") (sentences : List String) :
    detect find "" sentences = ⟨[], [], 0⟩ := by
  have hpr : patternResultsOf find "" = [] := by
    unfold patternResultsOf
    rw [List.filterMap_eq_nil]
    intro p _
    unfold processPattern
    by_cases h1 : (find p.1 "").isEmpty
    · rw [if_pos h1]
    · rw [if_neg h1]
      have hcl : cleanedMatchesOf (find p.1 "") = [] := by
        rw [List.eq_nil_iff_forall_not_mem]
        intro x hx
        obtain ⟨hx1, hx2⟩ := mem_cleanedMatchesOf hx
        obtain ⟨y, hy, hxy⟩ := List.mem_map.mp hx1
        have hy0 : y = "" := hfind p.1 y hy
        rw [hy0] at hxy
        rw [← hxy] at hx2
        exact absurd hx2 (by decide)
      rw [hcl]
      simp
  unfold detect uniqueItemsOf allMatchesOf
  rw [hpr]
  rfl

/-- C9: on empty string input — with the matcher returning only (necessarily
empty) substrings of the empty text, as regex matching does — the totally
embedded `processText` raises no exception and returns `wordCount = 0`, a
neutral sentiment with score 0 and confidence 0, `actionItems.totalCount = 0`
and `topics.primary = []`; topic extraction over the empty token list completes
with empty output although its maximum frequency is folded over an empty
collection. -/
theorem C9_empty_input (find : String → String → List String)
    (hfind : ∀ p m, m ∈ find p "" → m = "") :
    (processText find "" opts0).wordCount = 0 ∧
    (processText find "" opts0).sentiment.label = Label.neutral ∧
    (processText find "" opts0).sentiment.score = 0 ∧
    (processText find "" opts0).sentiment.confidence = 0 ∧
    (processText find "" opts0).actionItems.totalCount = 0 ∧
    (processText find "" opts0).topics.primary = [] := by
  have e0 : processText find "" opts0 = runStages (initialResult "") opts0
      (Except.ok (analyze (tokenize (clean ""))))
      (Except.ok (detect find (clean "") (splitSentences (clean ""))))
      (Except.ok (extract (clean "") (tokenize (clean ""))))
      (fun r => Except.ok (generateInsights r)) := rfl
  have hdet : detect find (clean "") (splitSentences (clean "")) = ⟨[], [], 0⟩ :=
    detect_empty find hfind _
  rw [e0, hdet, runStages_ok _ _ _ _ _ _ rfl]
  refine ⟨?_, ?_, ?_, ?_, ?_, ?_⟩ <;> with_unfolding_all decide

def findEmpty : String → String → List String := fun _ _ => []

theorem C9_witness :
    (processText findEmpty "" opts0).wordCount = 0 ∧
    (processText findEmpty "" opts0).sentiment.label = Label.neutral ∧
    (processText findEmpty "" opts0).sentiment.score = 0 ∧
    (processText findEmpty "" opts0).sentiment.confidence = 0 ∧
    (processText findEmpty "" opts0).actionItems.totalCount = 0 ∧
    (processText findEmpty "" opts0).topics.primary = [] :=
  C9_empty_input findEmpty (fun _ m hm => absurd hm (List.not_mem_nil m))

end TwinMind
